import Mathlib

/-!
Verification of the reconciliation/upsert, pagination and labeling logic of
the finance-splitter bank-feed backend.

The Python sources are embedded shallowly:

* `src/backend/base_bank_feed.py` — the configuration-driven base class:
  `build_upsert_query` / `insert_transactions` become the generic model
  (`BankConfig`, `whereConds`, `genMerge`, `genUpsert`), and
  `fetch_transactions` becomes `baseFetchTransactions`.
* `src/backend/shared_bank_feed.py` — the hand-written shared-account SQL
  becomes `sharedMerge` / `sharedUpsert`; `fetch_transactions`,
  `auto_label_bank_category` and `categorize_and_label_transactions` are
  embedded directly.
* `src/backend/bank_feeds_psql.py` — its `auto_label_bank_category`,
  `categorize_and_label_transactions` and `insert_transactions`.
* `src/backend/personal_bank_feed.py` — its `insert_transactions` WHERE guard.

Database tables (keyed by the primary column `id`) are modelled as functions
from key to optional row.  SQL `NULL` is `Option.none` / `SQLVal.null`;
the three-valued WHERE clause is modelled by "evaluates to TRUE" booleans.
-/

/-- An SQL value as stored in a transaction table column.  `null` is SQL NULL;
numeric values are abstracted as integers (no claim depends on decimal
arithmetic). -/
inductive SQLVal where
  | null
  | s (v : String)
  | i (v : Int)
  | b (v : Bool)
deriving DecidableEq, Repr

/-- SQL `COALESCE(a, b)`. -/
def coalesceV (a b : SQLVal) : SQLVal :=
  if a = SQLVal.null then b else a

/-- SQL `NULLIF(a, '')` on a text column: NULL when the value is the empty
string, otherwise the value itself. -/
def nullifEmptyV (a : SQLVal) : SQLVal :=
  if a = SQLVal.s "" then SQLVal.null else a

/-- The comparison operator emitted by `build_upsert_query` for one
always-refresh field of the conditional-update WHERE clause
(`base_bank_feed.py` lines 194-203): `!=` for every field except
`closing_balance`, `IS DISTINCT FROM` for `closing_balance`. -/
inductive CmpOp where
  | neq
  | distinctFrom
deriving DecidableEq, Repr

/-- Whether an SQL comparison evaluates to TRUE (three-valued logic collapsed
to "is definitely true", which is what a WHERE clause tests): `a != b` is TRUE
only when both operands are non-NULL and differ; `a IS DISTINCT FROM b` is the
total null-aware inequality. -/
def cmpTrue : CmpOp → SQLVal → SQLVal → Bool
  | CmpOp.neq, a, b => a ≠ SQLVal.null && b ≠ SQLVal.null && a ≠ b
  | CmpOp.distinctFrom, a, b => a ≠ b

/-- One entry of a `transaction_fields` configuration dictionary
(`base_bank_feed.py` `ACCOUNT_CONFIGS`): the column name, its `nullable` flag
(absent = `false`) and its `default` value (`.get('default', None)`, so
absent = SQL NULL). -/
structure FieldCfg where
  name : String
  nullable : Bool
  dfault : SQLVal
deriving DecidableEq, Repr

/-- A per-account configuration as consumed by `BaseBankFeed`: the ordered
field table plus the `api_update_fields` (always-refresh) and
`preserve_fields` (preserve-if-present) lists. -/
structure BankConfig where
  fields : List FieldCfg
  apiUpdateFields : List String
  preserveFields : List String
deriving DecidableEq, Repr

/-- The column names of a configuration, in declaration order. -/
def BankConfig.fieldNames (cfg : BankConfig) : List String :=
  cfg.fields.map (fun fc => fc.name)

/-- `ACCOUNT_CONFIGS['shared']` from `base_bank_feed.py`. -/
def sharedConfig : BankConfig :=
  ⟨[⟨"id", false, SQLVal.null⟩,
    ⟨"date", false, SQLVal.null⟩,
    ⟨"description", false, SQLVal.null⟩,
    ⟨"amount", false, SQLVal.null⟩,
    ⟨"bank_category", true, SQLVal.null⟩,
    ⟨"label", true, SQLVal.null⟩,
    ⟨"has_split", false, SQLVal.b false⟩,
    ⟨"split_from_id", true, SQLVal.null⟩],
   ["date", "description"],
   ["amount", "bank_category", "label", "has_split", "split_from_id"]⟩

/-- `ACCOUNT_CONFIGS['personal']` from `base_bank_feed.py`. -/
def personalConfig : BankConfig :=
  ⟨[⟨"id", false, SQLVal.null⟩,
    ⟨"date", false, SQLVal.null⟩,
    ⟨"description", false, SQLVal.null⟩,
    ⟨"amount", false, SQLVal.null⟩,
    ⟨"category", true, SQLVal.null⟩,
    ⟨"closing_balance", true, SQLVal.null⟩,
    ⟨"has_split", false, SQLVal.b false⟩,
    ⟨"split_from_id", true, SQLVal.null⟩],
   ["date", "description", "closing_balance"],
   ["amount", "category", "has_split", "split_from_id"]⟩

/-- `ACCOUNT_CONFIGS['offset']` from `base_bank_feed.py`. -/
def offsetConfig : BankConfig :=
  ⟨[⟨"id", false, SQLVal.null⟩,
    ⟨"date", false, SQLVal.null⟩,
    ⟨"description", false, SQLVal.null⟩,
    ⟨"amount", false, SQLVal.null⟩,
    ⟨"category", true, SQLVal.null⟩,
    ⟨"label", true, SQLVal.null⟩,
    ⟨"closing_balance", true, SQLVal.null⟩,
    ⟨"has_split", false, SQLVal.b false⟩,
    ⟨"split_from_id", true, SQLVal.null⟩],
   ["date", "description", "closing_balance"],
   ["amount", "category", "label", "has_split", "split_from_id"]⟩

/-- `SAVINGS_CONFIG` from `example_new_bank_feed.py`. -/
def savingsConfig : BankConfig :=
  ⟨[⟨"id", false, SQLVal.null⟩,
    ⟨"date", false, SQLVal.null⟩,
    ⟨"description", false, SQLVal.null⟩,
    ⟨"amount", false, SQLVal.null⟩,
    ⟨"closing_balance", true, SQLVal.null⟩,
    ⟨"transaction_type", true, SQLVal.null⟩,
    ⟨"interest_rate", true, SQLVal.null⟩,
    ⟨"has_split", false, SQLVal.b false⟩,
    ⟨"split_from_id", true, SQLVal.null⟩],
   ["date", "description", "closing_balance"],
   ["amount", "transaction_type", "interest_rate", "has_split", "split_from_id"]⟩

/-- The account configurations defined in the repository. -/
def repoConfigs : List BankConfig :=
  [sharedConfig, personalConfig, offsetConfig, savingsConfig]

/-- A database row (or a processed-transaction dictionary) of the generic
model: an association list of column name to value. -/
abbrev GenRow : Type := List (String × SQLVal)

/-- Read a column of a row; a column that is not present reads as SQL NULL. -/
def rowGet (r : GenRow) (f : String) : SQLVal :=
  match r.find? (fun p => p.1 == f) with
  | some p => p.2
  | none => SQLVal.null

/-- The parameter tuple bound for one transaction by
`BaseBankFeed.insert_transactions` (lines 227-236): for each configured field
in order, the transaction's value when the key is present in the processed
dictionary, else the configured default. -/
def incomingRow (cfg : BankConfig) (tx : GenRow) : GenRow :=
  cfg.fields.map (fun fc =>
    (fc.name,
      match tx.find? (fun p => p.1 == fc.name) with
      | some p => p.2
      | none => fc.dfault))

/-- The WHERE conditions generated by `build_upsert_query` (lines 194-203):
one comparison per always-refresh field that is among the configured field
names, `IS DISTINCT FROM` for `closing_balance` and `!=` for every other
field. -/
def whereConds (cfg : BankConfig) : List (String × CmpOp) :=
  cfg.apiUpdateFields.filterMap (fun f =>
    if f ∈ cfg.fieldNames then
      some (f, if f = "closing_balance" then CmpOp.distinctFrom else CmpOp.neq)
    else none)

/-- The did-anything-change guard: the generated WHERE clause is the OR of the
conditions, or the literal `TRUE` when there are none (line 203). -/
def genGuard (cfg : BankConfig) (stored inc : GenRow) : Bool :=
  let conds := whereConds cfg
  if conds.isEmpty then true
  else conds.any (fun p => cmpTrue p.2 (rowGet stored p.1) (rowGet inc p.1))

/-- The `DO UPDATE SET` clause of the generated query (lines 178-192) applied
to a conflicting stored row: always-refresh fields take the incoming
(`EXCLUDED`) value, preserve fields take `COALESCE(stored, EXCLUDED)`, and
every other field keeps its stored value. -/
def genUpdateRow (cfg : BankConfig) (stored inc : GenRow) : GenRow :=
  cfg.fields.map (fun fc =>
    (fc.name,
      if fc.name ∈ cfg.apiUpdateFields then rowGet inc fc.name
      else if fc.name ∈ cfg.preserveFields then
        coalesceV (rowGet stored fc.name) (rowGet inc fc.name)
      else rowGet stored fc.name))

/-- The `ON CONFLICT (id) DO UPDATE SET ... WHERE ...` of the generated query
(lines 178-211) applied to a conflicting stored row: the SET clause fires
only when the WHERE guard holds; otherwise the row is untouched. -/
def genMerge (cfg : BankConfig) (stored inc : GenRow) : GenRow :=
  if genGuard cfg stored inc then genUpdateRow cfg stored inc
  else stored

/-- A table keyed by the primary `id` column. -/
abbrev GTable : Type := SQLVal → Option GenRow

/-- One execution of the generated upsert for one processed transaction:
insert the bound parameter row when the id is new, otherwise apply the
conditional update to the conflicting row. -/
def genUpsert (cfg : BankConfig) (T : GTable) (tx : GenRow) : GTable :=
  let inc := incomingRow cfg tx
  let key := rowGet inc "id"
  fun k =>
    if k = key then
      some (match T key with
            | some r => genMerge cfg r inc
            | none => inc)
    else T k

/-- `BaseBankFeed.insert_transactions`, success path: one upsert per
transaction, in list order, all committed together. -/
def genInsertTransactions (cfg : BankConfig) (T : GTable) (txs : List GenRow) : GTable :=
  txs.foldl (genUpsert cfg) T

/-! ## Shared-account model (`shared_bank_feed.py`) -/

/-- A raw PocketSmith category object: `{'title': ...}`, the key possibly
absent. -/
structure RawCategory where
  title : Option String
deriving DecidableEq, Repr

/-- A raw PocketSmith API transaction object with the fields the repository
reads: `id`, `date`, `payee`, `amount`, optional `category`, optional
`closing_balance`. -/
structure RawTx where
  id : String
  date : String
  payee : String
  amount : Int
  category : Option RawCategory
  closing_balance : Option Int
deriving DecidableEq, Repr

/-- A shared-account transaction as mapped by
`shared_bank_feed.fetch_transactions` (lines 48-59). -/
structure SharedFetchTx where
  id : String
  date : String
  description : String
  amount : Int
  bank_category : String
deriving DecidableEq, Repr

/-- The per-record mapping inside `shared_bank_feed.fetch_transactions`
(lines 48-59): `description` is the payee and `bank_category` is
`category.title` when the category object and its title are present,
otherwise the empty string. -/
def parseSharedTx (tx : RawTx) : SharedFetchTx :=
  ⟨tx.id, tx.date, tx.payee, tx.amount,
    match tx.category with
    | some c =>
      match c.title with
      | some t => t
      | none => ""
    | none => ""⟩

/-- The outcome of one page request: a 200 response whose JSON body parsed to
a list, a non-200 status, or a transport exception raised by `requests.get`. -/
inductive ApiResponse where
  | success (txs : List RawTx)
  | failure (status : Nat)
  | netError
deriving DecidableEq, Repr

/-- `BaseBankFeed.fetch_transactions` (base_bank_feed.py lines 70-118) over a
prescribed sequence of page outcomes, starting at page number `page`: a 200
page with records maps each through `process_transaction` (dropping `None`
results) and continues; an empty 200 page stops; a 404 beyond page 1 stops
(pagination end); any other status stops (logged error); a transport
exception is caught and stops.  The loop never raises. -/
def baseFetchGo (process : RawTx → Option α) (page : Nat) :
    List ApiResponse → List α
  | [] => []
  | r :: rest =>
    match r with
    | ApiResponse.success txs =>
      if txs.isEmpty then []
      else txs.filterMap process ++ baseFetchGo process (page + 1) rest
    | ApiResponse.failure status =>
      if status = 404 ∧ page > 1 then [] else []
    | ApiResponse.netError => []

/-- `BaseBankFeed.fetch_transactions`: the page loop starting from page 1. -/
def baseFetchTransactions (process : RawTx → Option α)
    (responses : List ApiResponse) : List α :=
  baseFetchGo process 1 responses

/-- `shared_bank_feed.fetch_transactions` (lines 27-62) over a prescribed
sequence of page outcomes: a non-200 status returns the transactions
accumulated so far; an empty 200 page stops; a 200 page with records appends
the parsed records and continues.  There is no try/except here, so a
transport exception propagates out of the function (modelled as
`Except.error`). -/
def sharedFetchGo : List ApiResponse → Except Unit (List SharedFetchTx)
  | [] => Except.ok []
  | r :: rest =>
    match r with
    | ApiResponse.netError => Except.error ()
    | ApiResponse.failure _ => Except.ok []
    | ApiResponse.success txs =>
      if txs.isEmpty then Except.ok []
      else
        match sharedFetchGo rest with
        | Except.error e => Except.error e
        | Except.ok tail => Except.ok (txs.map parseSharedTx ++ tail)

/-- `shared_bank_feed.fetch_transactions`, from page 1. -/
def sharedFetchTransactions (responses : List ApiResponse) :
    Except Unit (List SharedFetchTx) :=
  sharedFetchGo responses

/-! ## Auto-labeling and `categorize_and_label_transactions` -/

/-- `shared_bank_feed.auto_label_bank_category` (lines 65-80): no label for a
falsy category or one of the no-label categories, the first configured person
for the first-person categories, otherwise the shared sentinel `"Both"`.
`PEOPLE` comes from the `PEOPLE` environment variable split on commas (never
an empty list in Python; `headD ""` models its first element). -/
def autoLabelShared (people : List String) (bank_category : String) :
    Option String :=
  if bank_category = "" ∨ bank_category ∈ ["Dining", "Transfers"] then none
  else if bank_category ∈ ["Personal Items", "Personal Care", "Hobbies",
      "Entertainment/Recreation", "Vehicle", "Gym", "Fuel"] then
    some (people.headD "")
  else some "Both"

/-- `bank_feeds_psql.auto_label_bank_category` (lines 65-80): same shape, but
its no-label set is `["Dining", "Travel"]`. -/
def autoLabelPsql (people : List String) (bank_category : String) :
    Option String :=
  if bank_category = "" ∨ bank_category ∈ ["Dining", "Travel"] then none
  else if bank_category ∈ ["Personal Items", "Personal Care", "Hobbies",
      "Entertainment/Recreation", "Vehicle", "Gym", "Fuel"] then
    some (people.headD "")
  else some "Both"

/-- One stored row as read back by the SELECT in
`shared_bank_feed.categorize_and_label_transactions` (lines 93-105); only
`label` and `bank_category` are ever consulted by the function. -/
structure ExistingRec where
  label : Option String
  bank_category : Option String
  category : Option String
  date : Option String
  description : Option String
  amount : Option Int
deriving DecidableEq, Repr

/-- Python's `a or b` for an optional string `a` and string `b`: `b` when `a`
is `None` or the empty string (falsy), else the string in `a`. -/
def pyOrStr (a : Option String) (b : String) : String :=
  match a with
  | some v => if v = "" then b else v
  | none => b

/-- The output record shape of
`shared_bank_feed.categorize_and_label_transactions` (lines 146-153). -/
structure SharedCatTx where
  id : String
  date : String
  description : String
  amount : Int
  bank_category : String
  label : Option String
deriving DecidableEq, Repr

/-- The per-transaction body of the loop in
`shared_bank_feed.categorize_and_label_transactions` (lines 115-153).  For a
transaction with an existing stored row: a non-None stored label is kept,
otherwise the label is computed from the stored bank_category when truthy
(falling back to the API one); the stored bank_category is kept when non-None
and non-empty, else the API one is used.  A new transaction uses the API
bank_category and auto-labels from it. -/
def sharedCategorizeOne (people : List String)
    (existing : String → Option ExistingRec) (tx : SharedFetchTx) :
    SharedCatTx :=
  match existing tx.id with
  | some e =>
    ⟨tx.id, tx.date, tx.description, tx.amount,
      (match e.bank_category with
       | some v => if v ≠ "" then v else tx.bank_category
       | none => tx.bank_category),
      (match e.label with
       | some l => some l
       | none =>
         autoLabelShared people (pyOrStr e.bank_category tx.bank_category))⟩
  | none =>
    ⟨tx.id, tx.date, tx.description, tx.amount, tx.bank_category,
      autoLabelShared people tx.bank_category⟩

/-- `shared_bank_feed.categorize_and_label_transactions`: the loop appends one
output record per input record with the existing-rows snapshot fixed, i.e. it
is a map of `sharedCategorizeOne` over the input list. -/
def sharedCategorize (people : List String)
    (existing : String → Option ExistingRec) (txs : List SharedFetchTx) :
    List SharedCatTx :=
  txs.map (sharedCategorizeOne people existing)

/-- The output record shape of
`bank_feeds_psql.categorize_and_label_transactions` (lines 95-103); it adds a
constant `category = None` column. -/
structure PsqlCatTx where
  id : String
  date : String
  description : String
  amount : Int
  category : Option String
  bank_category : String
  label : Option String
deriving DecidableEq, Repr

/-- The per-transaction body of
`bank_feeds_psql.categorize_and_label_transactions` (lines 86-103): the label
is the auto-label, normalised to `None` when falsy (`label if label else
None`), and `category` is always `None`. -/
def psqlCategorizeOne (people : List String) (tx : SharedFetchTx) : PsqlCatTx :=
  ⟨tx.id, tx.date, tx.description, tx.amount, none, tx.bank_category,
    match autoLabelPsql people tx.bank_category with
    | some l => if l = "" then none else some l
    | none => none⟩

/-- `bank_feeds_psql.categorize_and_label_transactions`: a map of
`psqlCategorizeOne` over the input list. -/
def psqlCategorize (people : List String) (txs : List SharedFetchTx) :
    List PsqlCatTx :=
  txs.map (psqlCategorizeOne people)

/-! ## Shared-account hand-written upsert (`shared_bank_feed.insert_transactions`) -/

/-- Python `COALESCE` on optional values: the first operand when non-None,
else the second. -/
def coalesceO (a b : Option α) : Option α :=
  match a with
  | some v => some v
  | none => b

/-- SQL `NULLIF(x, '')` on an optional text value. -/
def nullifEmptyO (a : Option String) : Option String :=
  match a with
  | some v => if v = "" then none else some v
  | none => none

/-- A row of the `shared_transactions` table as written by
`shared_bank_feed.insert_transactions` (lines 166-184).  `id`, `date` and
`description` are never written as NULL by this code path and are modelled
non-optional; the remaining columns are nullable. -/
structure SharedRow where
  id : String
  date : String
  description : String
  amount : Option Int
  bank_category : Option String
  label : Option String
  has_split : Option Bool
  split_from_id : Option String
deriving DecidableEq, Repr

/-- The WHERE guard of the shared upsert (lines 180-183): update only when the
stored `date` or `description` differs from the incoming one. -/
def sharedGuard (r : SharedRow) (tx : SharedCatTx) : Bool :=
  decide (r.date ≠ tx.date) || decide (r.description ≠ tx.description)

/-- The `ON CONFLICT (id) DO UPDATE SET ... WHERE ...` of the shared upsert
(lines 169-183) applied to the conflicting stored row: when the guard holds,
`date`/`description` are refreshed from the API, `amount`, `label`,
`has_split` and `split_from_id` are `COALESCE(stored, EXCLUDED)`, and
`bank_category` is `COALESCE(NULLIF(stored, ''), EXCLUDED)`; the `EXCLUDED`
values for `has_split`/`split_from_id` are the bound defaults `False`/`None`
(lines 193-194). -/
def sharedMerge (r : SharedRow) (tx : SharedCatTx) : SharedRow :=
  if sharedGuard r tx then
    { id := r.id
      date := tx.date
      description := tx.description
      amount := coalesceO r.amount (some tx.amount)
      bank_category := coalesceO (nullifEmptyO r.bank_category) (some tx.bank_category)
      label := coalesceO r.label tx.label
      has_split := coalesceO r.has_split (some false)
      split_from_id := coalesceO r.split_from_id none }
  else r

/-- The row inserted for a transaction whose id has no stored row
(lines 167-168 and the bound values of lines 186-195): API values for the
first six columns, `has_split = False` and `split_from_id = None`. -/
def sharedInsertRowFromTx (tx : SharedCatTx) : SharedRow :=
  ⟨tx.id, tx.date, tx.description, some tx.amount, some tx.bank_category,
    tx.label, some false, none⟩

/-- The `shared_transactions` table keyed by `id`. -/
abbrev STable : Type := String → Option SharedRow

/-- One execution of the shared upsert statement. -/
def sharedUpsert (T : STable) (tx : SharedCatTx) : STable :=
  fun k =>
    if k = tx.id then
      some (match T tx.id with
            | some r => sharedMerge r tx
            | none => sharedInsertRowFromTx tx)
    else T k

/-- `shared_bank_feed.insert_transactions`, success path: one upsert per
record in list order, committed together. -/
def sharedApplyUpserts (T : STable) (txs : List SharedCatTx) : STable :=
  txs.foldl sharedUpsert T

/-! ## Personal-account hand-written upsert (`personal_bank_feed.py`) -/

/-- A personal-account transaction as mapped by
`personal_bank_feed.fetch_transactions` (lines 46-53). -/
structure PersonalFetchTx where
  id : String
  date : String
  description : String
  amount : Int
  closing_balance : Option Int
deriving DecidableEq, Repr

/-- A row of the `personal_transactions` table as written by
`personal_bank_feed.insert_transactions` (lines 68-87). -/
structure PersonalRow where
  id : String
  date : String
  description : String
  amount : Option Int
  category : Option String
  closing_balance : Option Int
  has_split : Option Bool
  split_from_id : Option String
deriving DecidableEq, Repr

/-- The WHERE guard of the personal upsert (lines 82-86): `date` and
`description` compare with `!=` (non-null columns), `closing_balance` with
`IS DISTINCT FROM` (null-aware). -/
def personalGuard (r : PersonalRow) (tx : PersonalFetchTx) : Bool :=
  decide (r.date ≠ tx.date) || decide (r.description ≠ tx.description) ||
    decide (r.closing_balance ≠ tx.closing_balance)

/-- The conditional update of the personal upsert (lines 71-86): when the
guard holds, `date`/`description`/`closing_balance` are refreshed from the
API and the remaining columns are `COALESCE(stored, EXCLUDED)` with bound
`EXCLUDED` values `None` for `category`, `False` for `has_split` and `None`
for `split_from_id` (lines 94-97). -/
def personalMerge (r : PersonalRow) (tx : PersonalFetchTx) : PersonalRow :=
  if personalGuard r tx then
    { id := r.id
      date := tx.date
      description := tx.description
      amount := coalesceO r.amount (some tx.amount)
      category := coalesceO r.category none
      closing_balance := tx.closing_balance
      has_split := coalesceO r.has_split (some false)
      split_from_id := coalesceO r.split_from_id none }
  else r

/-- The row inserted for a new personal transaction (bound values of
lines 89-98). -/
def personalInsertRowFromTx (tx : PersonalFetchTx) : PersonalRow :=
  ⟨tx.id, tx.date, tx.description, some tx.amount, none, tx.closing_balance,
    some false, none⟩

/-- The `personal_transactions` table keyed by `id`. -/
abbrev PTable : Type := String → Option PersonalRow

/-- One execution of the personal upsert statement. -/
def personalUpsert (T : PTable) (tx : PersonalFetchTx) : PTable :=
  fun k =>
    if k = tx.id then
      some (match T tx.id with
            | some r => personalMerge r tx
            | none => personalInsertRowFromTx tx)
    else T k

/-- `personal_bank_feed.insert_transactions`, success path. -/
def personalApplyUpserts (T : PTable) (txs : List PersonalFetchTx) : PTable :=
  txs.foldl personalUpsert T

/-! ## Error-handling models

Database interaction is modelled by injecting the point of failure: a fetch
result that is an `Except.error`, or an index `failAt` at which a
`cursor.execute` raises.  A run's outcome is the committed table together
with a flag telling whether the exception was re-raised to the caller. -/

/-- `BaseBankFeed.get_existing_transactions` (base_bank_feed.py lines
134-163): on a successful query it builds the id-keyed dictionary of stored
rows; on any database exception it logs the error and falls through to
`return existing_data`, i.e. it returns the (empty) dictionary instead of
propagating the exception. -/
def baseGetExistingTransactions (dbResult : Except Unit (List GenRow)) :
    Except Unit (List (SQLVal × GenRow)) :=
  match dbResult with
  | Except.error _ => Except.ok []
  | Except.ok rows => Except.ok (rows.map (fun r => (rowGet r "id", r)))

/-- The fetch-existing block of
`shared_bank_feed.categorize_and_label_transactions` (lines 86-113): on a
database exception the error is logged and the function continues with the
(empty) `existing_data` dictionary; nothing is re-raised. -/
def sharedFetchExisting (dbResult : Except Unit (List (String × ExistingRec))) :
    Except Unit (List (String × ExistingRec)) :=
  match dbResult with
  | Except.error _ => Except.ok []
  | Except.ok rows => Except.ok rows

/-- The statement loop shared by every `insert_transactions` variant: execute
one statement per transaction in list order inside the open transaction,
accumulating on `pending`; the statement at index `failAt` raises. -/
def runStatements (step : σ → τ → σ) (failAt : Option Nat) :
    Nat → σ → List τ → Except Unit σ
  | _, pending, [] => Except.ok pending
  | i, pending, tx :: rest =>
    if failAt = some i then Except.error ()
    else runStatements step failAt (i + 1) (step pending tx) rest

/-- `shared_bank_feed.insert_transactions` (lines 158-224): on success the
pending statements are committed; on an exception the error is logged,
`conn.rollback()` discards the pending statements (the committed table stays
as it was) and the exception is re-raised (`raise`, line 219).  The boolean
records whether the exception reached the caller. -/
def sharedInsertTransactionsRun (T : STable) (txs : List SharedCatTx)
    (failAt : Option Nat) : STable × Bool :=
  match runStatements sharedUpsert failAt 0 T txs with
  | Except.ok final => (final, false)
  | Except.error _ => (T, true)

/-- `personal_bank_feed.insert_transactions` (lines 60-129): commit on
success; on an exception the error is logged, `conn.rollback()` restores the
committed state and the exception is re-raised (lines 120-124). -/
def personalInsertTransactionsRun (T : PTable) (txs : List PersonalFetchTx)
    (failAt : Option Nat) : PTable × Bool :=
  match runStatements personalUpsert failAt 0 T txs with
  | Except.ok final => (final, false)
  | Except.error _ => (T, true)

/-- `BaseBankFeed.insert_transactions` (base_bank_feed.py lines 215-247):
commit on success; on an exception the error is logged, the
`with psycopg2.connect(...)` context manager rolls the open transaction back,
and the exception is re-raised (`raise`, line 247). -/
def genInsertTransactionsRun (cfg : BankConfig) (T : GTable)
    (txs : List GenRow) (failAt : Option Nat) : GTable × Bool :=
  match runStatements (genUpsert cfg) failAt 0 T txs with
  | Except.ok final => (final, false)
  | Except.error _ => (T, true)

/-- A row of the table written by `bank_feeds_psql.insert_transactions`
(lines 114-118). -/
structure PsqlRow where
  id : String
  date : String
  description : String
  amount : Int
  category : Option String
  bank_category : String
  label : Option String
deriving DecidableEq, Repr

/-- The table written by `bank_feeds_psql.insert_transactions`. -/
abbrev QTable : Type := String → Option PsqlRow

/-- One `INSERT ... ON CONFLICT (id) DO NOTHING` of
`bank_feeds_psql.insert_transactions` (lines 114-127): a conflicting id
leaves the stored row untouched. -/
def psqlInsertOne (T : QTable) (tx : PsqlCatTx) : QTable :=
  fun k =>
    if k = tx.id then
      some (match T tx.id with
            | some r => r
            | none =>
              ⟨tx.id, tx.date, tx.description, tx.amount, tx.category,
                tx.bank_category, tx.label⟩)
    else T k

/-- `bank_feeds_psql.insert_transactions` (lines 108-136): commit on success;
on an exception the error is logged and swallowed — there is no `raise` and
no explicit rollback; `conn.close()` without a commit discards the open
transaction, so the committed table stays as it was and the caller sees a
normal return. -/
def psqlInsertTransactionsRun (T : QTable) (txs : List PsqlCatTx)
    (failAt : Option Nat) : QTable × Bool :=
  match runStatements psqlInsertOne failAt 0 T txs with
  | Except.ok final => (final, false)
  | Except.error _ => (T, false)

/-! ## Helper lemmas -/

/-- A statement loop whose injected failure index lies within the list raises
and never commits. -/
theorem runStatements_error_of_lt (step : σ → τ → σ) (k : Nat) :
    ∀ (txs : List τ) (i : Nat) (pending : σ), i ≤ k → k < i + txs.length →
      runStatements step (some k) i pending txs = Except.error () := by
  intro txs
  induction txs with
  | nil =>
    intro i pending h1 h2
    simp only [List.length_nil] at h2
    omega
  | cons t rest ih =>
    intro i pending h1 h2
    by_cases hik : k = i
    · simp [runStatements, hik]
    · have hlt : (some k = some i) = False := by
        simp [hik]
      simp only [runStatements, hlt, if_false]
      exact ih (i + 1) (step pending t)
        (by omega) (by simp only [List.length_cons] at h2; omega)

/-- The identifying fields of a record survive
`sharedCategorizeOne` untouched. -/
theorem sharedCategorizeOne_fields (people : List String)
    (existing : String → Option ExistingRec) (tx : SharedFetchTx) :
    (sharedCategorizeOne people existing tx).id = tx.id ∧
    (sharedCategorizeOne people existing tx).date = tx.date ∧
    (sharedCategorizeOne people existing tx).description = tx.description ∧
    (sharedCategorizeOne people existing tx).amount = tx.amount := by
  unfold sharedCategorizeOne
  rcases h : existing tx.id with _ | e <;> simp [h]

/-- The base fetch loop over a run of non-empty 200 pages accumulates the
processed records of those pages and continues on the remaining responses. -/
theorem baseFetchGo_success_pages (process : RawTx → Option α) :
    ∀ (pages : List (List RawTx)) (page : Nat) (tailRes : List ApiResponse),
      (∀ p ∈ pages, p ≠ []) →
      baseFetchGo process page (pages.map ApiResponse.success ++ tailRes) =
        pages.flatten.filterMap process ++
          baseFetchGo process (page + pages.length) tailRes := by
  intro pages
  induction pages with
  | nil => intro page tailRes _; simp
  | cons p ps ih =>
    intro page tailRes h
    have hp : p.isEmpty = false := by
      have : p ≠ [] := h p (by simp)
      simpa [List.isEmpty_iff] using this
    simp only [List.map_cons, List.cons_append, baseFetchGo, hp, Bool.false_eq_true,
      if_false, List.append_eq]
    rw [ih (page + 1) tailRes (fun q hq => h q (by simp [hq]))]
    have harith : page + 1 + ps.length = page + (p :: ps).length := by
      simp only [List.length_cons]; omega
    rw [harith]
    simp [List.filterMap_append, List.append_assoc]

/-- The shared fetch loop over a run of non-empty 200 pages prepends those
pages' parsed records to whatever the remaining responses produce. -/
theorem sharedFetchGo_success_pages :
    ∀ (pages : List (List RawTx)) (tailRes : List ApiResponse),
      (∀ p ∈ pages, p ≠ []) →
      ((∀ t, sharedFetchGo tailRes = Except.ok t →
          sharedFetchGo (pages.map ApiResponse.success ++ tailRes) =
            Except.ok (pages.flatten.map parseSharedTx ++ t)) ∧
       (∀ e, sharedFetchGo tailRes = Except.error e →
          sharedFetchGo (pages.map ApiResponse.success ++ tailRes) =
            Except.error e)) := by
  intro pages
  induction pages with
  | nil =>
    intro tailRes _
    constructor
    · intro t ht; simpa using ht
    · intro e he; simpa using he
  | cons p ps ih =>
    intro tailRes h
    have hp : p.isEmpty = false := by
      have : p ≠ [] := h p (by simp)
      simpa [List.isEmpty_iff] using this
    have ihps := ih tailRes (fun q hq => h q (by simp [hq]))
    constructor
    · intro t ht
      simp only [List.map_cons, List.cons_append, sharedFetchGo, hp,
        Bool.false_eq_true, if_false, List.append_eq]
      rw [ihps.1 t ht]
      simp [List.append_assoc]
    · intro e he
      simp only [List.map_cons, List.cons_append, sharedFetchGo, hp,
        Bool.false_eq_true, if_false, List.append_eq]
      rw [ihps.2 e he]

/-! ## Claim theorems -/

/-- C3: for every sequence of API pages where pages 1..K-1 return non-empty
arrays and page K returns an empty array (all requests succeeding), both
`fetch_transactions` implementations terminate and return exactly the records
of pages 1..K-1, concatenated in page order with each page's records in
API-returned order (mapped per record: `process_transaction` for the base
class, the parse of lines 48-59 for the shared feed). -/
theorem pagination_collects_pages (process : RawTx → Option α)
    (pages : List (List RawTx)) (rest : List ApiResponse)
    (h : ∀ p ∈ pages, p ≠ []) :
    baseFetchTransactions process
        (pages.map ApiResponse.success ++ ApiResponse.success [] :: rest) =
      pages.flatten.filterMap process ∧
    sharedFetchTransactions
        (pages.map ApiResponse.success ++ ApiResponse.success [] :: rest) =
      Except.ok (pages.flatten.map parseSharedTx) := by
  constructor
  · unfold baseFetchTransactions
    rw [baseFetchGo_success_pages process pages 1 (ApiResponse.success [] :: rest) h]
    simp [baseFetchGo]
  · unfold sharedFetchTransactions
    have hstop : sharedFetchGo (ApiResponse.success [] :: rest) =
        Except.ok [] := rfl
    have := (sharedFetchGo_success_pages pages (ApiResponse.success [] :: rest) h).1
      [] hstop
    simpa using this

/-- Witness for C3 at a concrete two-page fetch (one record per page, then an
empty page). -/
theorem pagination_collects_pages_witness :
    (∀ p ∈ [[RawTx.mk "t1" "2024-01-02" "Shop" 5 none none],
            [RawTx.mk "t2" "2024-01-03" "Cafe" 7 (some ⟨some "Dining"⟩) none]],
       p ≠ []) ∧
    (baseFetchTransactions some
        ([[RawTx.mk "t1" "2024-01-02" "Shop" 5 none none],
          [RawTx.mk "t2" "2024-01-03" "Cafe" 7 (some ⟨some "Dining"⟩) none]].map
            ApiResponse.success ++ ApiResponse.success [] :: []) =
      List.filterMap some
        (List.flatten [[RawTx.mk "t1" "2024-01-02" "Shop" 5 none none],
                       [RawTx.mk "t2" "2024-01-03" "Cafe" 7 (some ⟨some "Dining"⟩) none]]) ∧
     sharedFetchTransactions
        ([[RawTx.mk "t1" "2024-01-02" "Shop" 5 none none],
          [RawTx.mk "t2" "2024-01-03" "Cafe" 7 (some ⟨some "Dining"⟩) none]].map
            ApiResponse.success ++ ApiResponse.success [] :: []) =
      Except.ok (List.map parseSharedTx
        (List.flatten [[RawTx.mk "t1" "2024-01-02" "Shop" 5 none none],
                       [RawTx.mk "t2" "2024-01-03" "Cafe" 7 (some ⟨some "Dining"⟩) none]]))) :=
  ⟨by decide,
   pagination_collects_pages some
     [[RawTx.mk "t1" "2024-01-02" "Shop" 5 none none],
      [RawTx.mk "t2" "2024-01-03" "Cafe" 7 (some ⟨some "Dining"⟩) none]]
     [] (by decide)⟩

/-- A non-200 status stops the base fetch loop whatever the page number. -/
theorem baseFetchGo_failure (process : RawTx → Option α) (page : Nat)
    (s : Nat) (rest : List ApiResponse) :
    baseFetchGo process page (ApiResponse.failure s :: rest) = [] := by
  simp only [baseFetchGo]
  split <;> rfl

/-- C8 (amended): when a page request returns a non-success status, both
fetch implementations stop and return the records accumulated from the pages
already processed, with no retry; when a page request raises a transport
exception, the base implementation (whose loop body is wrapped in
`try/except`) likewise returns the accumulated records, but the shared
implementation has no exception handler and the exception propagates out of
`fetch_transactions`, discarding the accumulated records. -/
theorem fetch_failure_behavior (process : RawTx → Option α)
    (pages : List (List RawTx)) (rest : List ApiResponse) (s : Nat)
    (h : ∀ p ∈ pages, p ≠ []) :
    baseFetchTransactions process
        (pages.map ApiResponse.success ++ ApiResponse.failure s :: rest) =
      pages.flatten.filterMap process ∧
    baseFetchTransactions process
        (pages.map ApiResponse.success ++ ApiResponse.netError :: rest) =
      pages.flatten.filterMap process ∧
    sharedFetchTransactions
        (pages.map ApiResponse.success ++ ApiResponse.failure s :: rest) =
      Except.ok (pages.flatten.map parseSharedTx) ∧
    sharedFetchTransactions
        (pages.map ApiResponse.success ++ ApiResponse.netError :: rest) =
      Except.error () := by
  refine ⟨?_, ?_, ?_, ?_⟩
  · unfold baseFetchTransactions
    rw [baseFetchGo_success_pages process pages 1 (ApiResponse.failure s :: rest) h,
      baseFetchGo_failure]
    simp
  · unfold baseFetchTransactions
    rw [baseFetchGo_success_pages process pages 1 (ApiResponse.netError :: rest) h]
    simp [baseFetchGo]
  · unfold sharedFetchTransactions
    have hstop : sharedFetchGo (ApiResponse.failure s :: rest) =
        Except.ok [] := rfl
    have := (sharedFetchGo_success_pages pages (ApiResponse.failure s :: rest) h).1
      [] hstop
    simpa using this
  · unfold sharedFetchTransactions
    have hstop : sharedFetchGo (ApiResponse.netError :: rest) =
        Except.error () := rfl
    exact (sharedFetchGo_success_pages pages (ApiResponse.netError :: rest) h).2
      () hstop

/-- Witness for C8 at a concrete input: one successful page, then a failed
request. -/
theorem fetch_failure_behavior_witness :
    (∀ p ∈ [[RawTx.mk "t1" "2024-01-02" "Shop" 5 none none]], p ≠ []) ∧
    (baseFetchTransactions some
        ([[RawTx.mk "t1" "2024-01-02" "Shop" 5 none none]].map
            ApiResponse.success ++ ApiResponse.failure 500 :: []) =
      List.filterMap some
        (List.flatten [[RawTx.mk "t1" "2024-01-02" "Shop" 5 none none]]) ∧
     baseFetchTransactions some
        ([[RawTx.mk "t1" "2024-01-02" "Shop" 5 none none]].map
            ApiResponse.success ++ ApiResponse.netError :: []) =
      List.filterMap some
        (List.flatten [[RawTx.mk "t1" "2024-01-02" "Shop" 5 none none]]) ∧
     sharedFetchTransactions
        ([[RawTx.mk "t1" "2024-01-02" "Shop" 5 none none]].map
            ApiResponse.success ++ ApiResponse.failure 500 :: []) =
      Except.ok (List.map parseSharedTx
        (List.flatten [[RawTx.mk "t1" "2024-01-02" "Shop" 5 none none]])) ∧
     sharedFetchTransactions
        ([[RawTx.mk "t1" "2024-01-02" "Shop" 5 none none]].map
            ApiResponse.success ++ ApiResponse.netError :: []) =
      Except.error ()) :=
  ⟨by decide,
   fetch_failure_behavior some
     [[RawTx.mk "t1" "2024-01-02" "Shop" 5 none none]] [] 500 (by decide)⟩

/-- C8 counterexample: the claim "fetch_transactions does not raise on a
network exception" fails for the shared implementation — with the very first
page request raising, `shared_bank_feed.fetch_transactions` propagates the
exception instead of returning the (empty) accumulated list. -/
theorem fetch_netError_raises_cx :
    sharedFetchTransactions [ApiResponse.netError] = Except.error () ∧
    ¬ ∃ out, sharedFetchTransactions [ApiResponse.netError] = Except.ok out := by
  constructor
  · rfl
  · rintro ⟨out, hout⟩
    simp [sharedFetchTransactions, sharedFetchGo] at hout

/-- C10: both `categorize_and_label_transactions` implementations return a
list of the same length and order as their input, and the i-th output record
keeps the i-th input's `id`, `date`, `description` and `amount`; only
`bank_category` and `label` (and the constant `category` in the psql variant)
are recomputed. -/
theorem categorize_preserves_identity_fields :
    (∀ (people : List String) (existing : String → Option ExistingRec)
       (txs : List SharedFetchTx),
       (sharedCategorize people existing txs).length = txs.length ∧
       (sharedCategorize people existing txs).map
           (fun o => (o.id, o.date, o.description, o.amount)) =
         txs.map (fun t => (t.id, t.date, t.description, t.amount))) ∧
    (∀ (people : List String) (txs : List SharedFetchTx),
       (psqlCategorize people txs).length = txs.length ∧
       (psqlCategorize people txs).map
           (fun o => (o.id, o.date, o.description, o.amount)) =
         txs.map (fun t => (t.id, t.date, t.description, t.amount))) := by
  constructor
  · intro people existing txs
    constructor
    · simp [sharedCategorize]
    · unfold sharedCategorize
      rw [List.map_map]
      apply List.map_congr_left
      intro tx _
      obtain ⟨h1, h2, h3, h4⟩ := sharedCategorizeOne_fields people existing tx
      simp [Function.comp, h1, h2, h3, h4]
  · intro people txs
    constructor
    · simp [psqlCategorize]
    · unfold psqlCategorize
      rw [List.map_map]
      apply List.map_congr_left
      intro tx _
      simp [Function.comp, psqlCategorizeOne]

/-- C4: in the shared-account labeling, when a transaction has an existing
stored row whose label is NULL, the bank category fed into auto-labeling is
the existing stored `bank_category` whenever it is non-null and non-empty,
and only falls back to the freshly fetched one when the stored one is absent;
in particular with existing `"Fuel"` and incoming `"Dining"` the label is
computed from `"Fuel"` (giving the first configured person, where `"Dining"`
would give no label). -/
theorem label_uses_existing_bank_category (people : List String)
    (existing : String → Option ExistingRec) (tx : SharedFetchTx)
    (e : ExistingRec) (he : existing tx.id = some e) (hl : e.label = none) :
    (∀ v, e.bank_category = some v → v ≠ "" →
       (sharedCategorizeOne people existing tx).label =
         autoLabelShared people v) ∧
    ((e.bank_category = none ∨ e.bank_category = some "") →
       (sharedCategorizeOne people existing tx).label =
         autoLabelShared people tx.bank_category) ∧
    (e.bank_category = some "Fuel" → tx.bank_category = "Dining" →
       (sharedCategorizeOne people existing tx).label =
         some (people.headD "")) := by
  refine ⟨?_, ?_, ?_⟩
  · intro v hv hne
    simp [sharedCategorizeOne, he, hl, pyOrStr, hv, hne]
  · intro hbc
    rcases hbc with hbc | hbc <;>
      simp [sharedCategorizeOne, he, hl, pyOrStr, hbc]
  · intro hbc htx
    simp [sharedCategorizeOne, he, hl, pyOrStr, hbc, htx, autoLabelShared]

/-- Witness for C4: existing row with NULL label and bank_category "Fuel",
incoming record with bank_category "Dining". -/
theorem label_uses_existing_bank_category_witness :
    ((fun i => if i = "t1" then
        some (ExistingRec.mk none (some "Fuel") none none none none)
      else none) "t1" = some (ExistingRec.mk none (some "Fuel") none none none none)) ∧
    ((ExistingRec.mk none (some "Fuel") none none none none).label = none) ∧
    (sharedCategorizeOne ["Alice", "Bob"]
        (fun i => if i = "t1" then
          some (ExistingRec.mk none (some "Fuel") none none none none)
        else none)
        (SharedFetchTx.mk "t1" "2024-01-02" "BP Fuel" 50 "Dining")).label =
      some (["Alice", "Bob"].headD "") := by
  refine ⟨by decide, rfl, ?_⟩
  exact (label_uses_existing_bank_category ["Alice", "Bob"]
    (fun i => if i = "t1" then
      some (ExistingRec.mk none (some "Fuel") none none none none)
    else none)
    (SharedFetchTx.mk "t1" "2024-01-02" "BP Fuel" 50 "Dining")
    (ExistingRec.mk none (some "Fuel") none none none none)
    (by decide) rfl).2.2 rfl rfl

/-- C7 counterexample: the claim that the label computation always yields no
label is false — a new shared-account transaction with bank category
`"Groceries"` is labeled (with `"Both"`), so auto-labeling is not disabled. -/
theorem auto_label_not_disabled_cx :
    ¬ (∀ (people : List String) (existing : String → Option ExistingRec)
         (txs : List SharedFetchTx),
         ∀ o ∈ sharedCategorize people existing txs, o.label = none) := by
  intro hclaim
  have hmem : sharedCategorizeOne ["Alice"] (fun _ => none)
      (SharedFetchTx.mk "t1" "2024-01-02" "Woolworths" 42 "Groceries") ∈
      sharedCategorize ["Alice"] (fun _ => none)
        [SharedFetchTx.mk "t1" "2024-01-02" "Woolworths" 42 "Groceries"] := by
    simp [sharedCategorize]
  have hlab := hclaim ["Alice"] (fun _ => none)
    [SharedFetchTx.mk "t1" "2024-01-02" "Woolworths" 42 "Groceries"] _ hmem
  revert hlab
  decide

/-- C7 (amended): auto-labeling is active, not disabled.  For a transaction
with no existing stored row, the persisted label follows the category→label
policy table: categories in the no-label set (or a falsy category) map to no
label, categories in the first-person set map to the first configured person,
and every other category maps to the shared sentinel `"Both"`; the psql
variant behaves the same with its own no-label set and normalises a falsy
label to None. -/
theorem auto_label_policy (people : List String)
    (existing : String → Option ExistingRec) (tx : SharedFetchTx)
    (hnew : existing tx.id = none) :
    ((tx.bank_category = "" ∨ tx.bank_category ∈ ["Dining", "Transfers"]) →
       (sharedCategorizeOne people existing tx).label = none) ∧
    (tx.bank_category ∈ ["Personal Items", "Personal Care", "Hobbies",
        "Entertainment/Recreation", "Vehicle", "Gym", "Fuel"] →
       (sharedCategorizeOne people existing tx).label =
         some (people.headD "")) ∧
    (tx.bank_category ≠ "" → tx.bank_category ∉ ["Dining", "Transfers"] →
       tx.bank_category ∉ ["Personal Items", "Personal Care", "Hobbies",
         "Entertainment/Recreation", "Vehicle", "Gym", "Fuel"] →
       (sharedCategorizeOne people existing tx).label = some "Both") ∧
    ((tx.bank_category = "" ∨ tx.bank_category ∈ ["Dining", "Travel"]) →
       (psqlCategorizeOne people tx).label = none) ∧
    (tx.bank_category ≠ "" → tx.bank_category ∉ ["Dining", "Travel"] →
       tx.bank_category ∉ ["Personal Items", "Personal Care", "Hobbies",
         "Entertainment/Recreation", "Vehicle", "Gym", "Fuel"] →
       (psqlCategorizeOne people tx).label = some "Both") := by
  refine ⟨?_, ?_, ?_, ?_, ?_⟩
  · intro hbc
    rcases hbc with h | h
    · simp [sharedCategorizeOne, hnew, autoLabelShared, h]
    · simp only [List.mem_cons, List.mem_singleton, List.not_mem_nil,
        or_false] at h
      rcases h with h | h <;>
        simp [sharedCategorizeOne, hnew, autoLabelShared, h]
  · intro hbc
    simp only [List.mem_cons, List.mem_singleton, List.not_mem_nil, or_false] at hbc
    rcases hbc with h | h | h | h | h | h | h <;>
      simp [sharedCategorizeOne, hnew, autoLabelShared, h]
  · intro h1 h2 h3
    simp [sharedCategorizeOne, hnew, autoLabelShared, h1, h2, h3]
  · intro hbc
    rcases hbc with h | h
    · simp [psqlCategorizeOne, autoLabelPsql, h]
    · simp only [List.mem_cons, List.mem_singleton, List.not_mem_nil,
        or_false] at h
      rcases h with h | h <;> simp [psqlCategorizeOne, autoLabelPsql, h]
  · intro h1 h2 h3
    simp [psqlCategorizeOne, autoLabelPsql, h1, h2, h3]

/-- Witness for C7's amended statement: a new `"Groceries"` transaction gets
the label `"Both"`. -/
theorem auto_label_policy_witness :
    ((fun _ => (none : Option ExistingRec))
        (SharedFetchTx.mk "t1" "2024-01-02" "Woolworths" 42 "Groceries").id = none) ∧
    (sharedCategorizeOne ["Alice"] (fun _ => none)
        (SharedFetchTx.mk "t1" "2024-01-02" "Woolworths" 42 "Groceries")).label =
      some "Both" :=
  ⟨rfl,
   (auto_label_policy ["Alice"] (fun _ => none)
      (SharedFetchTx.mk "t1" "2024-01-02" "Woolworths" 42 "Groceries")
      rfl).2.2.1 (by decide) (by decide) (by decide)⟩

/-- Looking up a field name in a row built per configured field gives that
field's assigned value, provided field names are unique. -/
theorem find?_mapFields (g : FieldCfg → SQLVal) (fc : FieldCfg) :
    ∀ (fields : List FieldCfg), fc ∈ fields →
      (fields.map (fun x => x.name)).Nodup →
      (fields.map (fun x => (x.name, g x))).find? (fun p => p.1 == fc.name) =
        some (fc.name, g fc) := by
  intro fields
  induction fields with
  | nil => intro hmem; cases hmem
  | cons x xs ih =>
    intro hmem hnd
    rcases List.mem_cons.mp hmem with h | h
    · subst h
      simp [List.find?]
    · have hx : x.name ≠ fc.name := by
        intro heq
        have hmm : fc.name ∈ xs.map (fun y => y.name) :=
          List.mem_map_of_mem (fun y => y.name) h
        rw [← heq] at hmm
        exact (List.nodup_cons.mp hnd).1 hmm
      rw [List.map_cons, List.find?_cons_of_neg, ih h (List.nodup_cons.mp hnd).2]
      simpa using hx

/-- `rowGet` on a row built per configured field. -/
theorem rowGet_mapFields (g : FieldCfg → SQLVal) (fc : FieldCfg)
    (fields : List FieldCfg) (hmem : fc ∈ fields)
    (hnd : (fields.map (fun x => x.name)).Nodup) :
    rowGet (fields.map (fun x => (x.name, g x))) fc.name = g fc := by
  unfold rowGet
  rw [find?_mapFields g fc fields hmem hnd]

/-- C5: a fetched record whose id has no stored row is inserted without error.
For the shared account the inserted row carries the incoming values for
`id`/`date`/`description`/`amount`/`bank_category`/`label` and the defaults
`has_split = false`, `split_from_id = NULL`.  For the configuration-driven
base class the inserted row is exactly the bound parameter row, whose value
for each configured field is the incoming transaction's value when the
dictionary carries the key and the configured default otherwise. -/
theorem first_insert_uses_incoming_and_defaults :
    (∀ (T : STable) (tx : SharedCatTx), T tx.id = none →
       sharedUpsert T tx tx.id =
         some (SharedRow.mk tx.id tx.date tx.description (some tx.amount)
           (some tx.bank_category) tx.label (some false) none)) ∧
    (∀ (cfg : BankConfig) (T : GTable) (tx : GenRow),
       T (rowGet (incomingRow cfg tx) "id") = none →
       genUpsert cfg T tx (rowGet (incomingRow cfg tx) "id") =
         some (incomingRow cfg tx)) ∧
    (∀ (cfg : BankConfig) (tx : GenRow) (fc : FieldCfg),
       fc ∈ cfg.fields → cfg.fieldNames.Nodup →
       rowGet (incomingRow cfg tx) fc.name =
         (match tx.find? (fun p => p.1 == fc.name) with
          | some p => p.2
          | none => fc.dfault)) := by
  refine ⟨?_, ?_, ?_⟩
  · intro T tx h
    simp [sharedUpsert, h, sharedInsertRowFromTx]
  · intro cfg T tx h
    simp [genUpsert, h]
  · intro cfg tx fc hmem hnd
    exact rowGet_mapFields _ fc cfg.fields hmem hnd

/-- Witness for C5: inserting a record into an empty shared table. -/
theorem first_insert_witness :
    ((fun _ => (none : Option SharedRow)) "t1" = none) ∧
    sharedUpsert (fun _ => none)
        (SharedCatTx.mk "t1" "2024-01-02" "Shop" 5 "Groceries" (some "Both"))
        "t1" =
      some (SharedRow.mk "t1" "2024-01-02" "Shop" (some 5) (some "Groceries")
        (some "Both") (some false) none) :=
  ⟨rfl,
   first_insert_uses_incoming_and_defaults.1 (fun _ => none)
     (SharedCatTx.mk "t1" "2024-01-02" "Shop" 5 "Groceries" (some "Both")) rfl⟩

/-- C6: the conditional update applies only when at least one always-refresh
field differs from its stored value.  Conjuncts: (1) when the generated WHERE
guard is false, the generic upsert leaves the table unchanged; (2) with a
non-empty condition list the guard holds exactly when some generated
comparison evaluates to TRUE; (3) `!=` is ordinary (null-rejecting)
inequality and `IS DISTINCT FROM` is null-aware distinctness; (4) over every
account configuration in the repository, a generated condition uses
`IS DISTINCT FROM` exactly when its field is declared nullable; (5) the same
no-op property for the hand-written personal-account upsert. -/
theorem update_guard_policy :
    (∀ (cfg : BankConfig) (T : GTable) (tx : GenRow) (r : GenRow),
       T (rowGet (incomingRow cfg tx) "id") = some r →
       genGuard cfg r (incomingRow cfg tx) = false →
       genUpsert cfg T tx = T) ∧
    (∀ (cfg : BankConfig) (r inc : GenRow), (whereConds cfg).isEmpty = false →
       (genGuard cfg r inc = true ↔
         ∃ p ∈ whereConds cfg,
           cmpTrue p.2 (rowGet r p.1) (rowGet inc p.1) = true)) ∧
    (∀ a b : SQLVal,
       (cmpTrue CmpOp.neq a b = true ↔
         a ≠ SQLVal.null ∧ b ≠ SQLVal.null ∧ a ≠ b) ∧
       (cmpTrue CmpOp.distinctFrom a b = true ↔ a ≠ b)) ∧
    (repoConfigs.all (fun cfg => (whereConds cfg).all (fun p =>
       (p.2 == CmpOp.distinctFrom) ==
         (((cfg.fields.find? (fun fc => fc.name == p.1)).map
             (fun fc => fc.nullable)).getD false))) = true) ∧
    (∀ (T : PTable) (tx : PersonalFetchTx) (r : PersonalRow),
       T tx.id = some r → personalGuard r tx = false →
       personalUpsert T tx = T) := by
  refine ⟨?_, ?_, ?_, ?_, ?_⟩
  · intro cfg T tx r hT hg
    funext k
    unfold genUpsert
    by_cases hk : k = rowGet (incomingRow cfg tx) "id"
    · subst hk
      simp [hT, genMerge, hg]
    · simp [hk]
  · intro cfg r inc h
    unfold genGuard
    simp [h, List.any_eq_true]
  · intro a b
    constructor <;> simp [cmpTrue, and_assoc]
  · decide
  · intro T tx r hT hg
    funext k
    unfold personalUpsert
    by_cases hk : k = tx.id
    · subst hk
      simp [hT, personalMerge, hg]
    · simp [hk]

/-- Witness for C6: a personal-account record identical to its stored row
fails the guard and the upsert is a no-op (both the generic and the
hand-written model), checked at a concrete table. -/
theorem update_guard_policy_witness :
    ((fun k => if k = SQLVal.s "t1" then
        some (incomingRow personalConfig
          [("id", SQLVal.s "t1"), ("date", SQLVal.s "2024-01-02"),
           ("description", SQLVal.s "Shop"), ("amount", SQLVal.i 5),
           ("closing_balance", SQLVal.null)])
      else none)
      (rowGet (incomingRow personalConfig
        [("id", SQLVal.s "t1"), ("date", SQLVal.s "2024-01-02"),
         ("description", SQLVal.s "Shop"), ("amount", SQLVal.i 5),
         ("closing_balance", SQLVal.null)]) "id") =
      some (incomingRow personalConfig
        [("id", SQLVal.s "t1"), ("date", SQLVal.s "2024-01-02"),
         ("description", SQLVal.s "Shop"), ("amount", SQLVal.i 5),
         ("closing_balance", SQLVal.null)])) ∧
    (genGuard personalConfig
      (incomingRow personalConfig
        [("id", SQLVal.s "t1"), ("date", SQLVal.s "2024-01-02"),
         ("description", SQLVal.s "Shop"), ("amount", SQLVal.i 5),
         ("closing_balance", SQLVal.null)])
      (incomingRow personalConfig
        [("id", SQLVal.s "t1"), ("date", SQLVal.s "2024-01-02"),
         ("description", SQLVal.s "Shop"), ("amount", SQLVal.i 5),
         ("closing_balance", SQLVal.null)]) = false) ∧
    genUpsert personalConfig
      (fun k => if k = SQLVal.s "t1" then
        some (incomingRow personalConfig
          [("id", SQLVal.s "t1"), ("date", SQLVal.s "2024-01-02"),
           ("description", SQLVal.s "Shop"), ("amount", SQLVal.i 5),
           ("closing_balance", SQLVal.null)])
      else none)
      [("id", SQLVal.s "t1"), ("date", SQLVal.s "2024-01-02"),
       ("description", SQLVal.s "Shop"), ("amount", SQLVal.i 5),
       ("closing_balance", SQLVal.null)] =
      (fun k => if k = SQLVal.s "t1" then
        some (incomingRow personalConfig
          [("id", SQLVal.s "t1"), ("date", SQLVal.s "2024-01-02"),
           ("description", SQLVal.s "Shop"), ("amount", SQLVal.i 5),
           ("closing_balance", SQLVal.null)])
      else none) :=
  ⟨by decide, by decide,
   update_guard_policy.1 personalConfig
     (fun k => if k = SQLVal.s "t1" then
        some (incomingRow personalConfig
          [("id", SQLVal.s "t1"), ("date", SQLVal.s "2024-01-02"),
           ("description", SQLVal.s "Shop"), ("amount", SQLVal.i 5),
           ("closing_balance", SQLVal.null)])
      else none)
     [("id", SQLVal.s "t1"), ("date", SQLVal.s "2024-01-02"),
      ("description", SQLVal.s "Shop"), ("amount", SQLVal.i 5),
      ("closing_balance", SQLVal.null)]
     (incomingRow personalConfig
       [("id", SQLVal.s "t1"), ("date", SQLVal.s "2024-01-02"),
        ("description", SQLVal.s "Shop"), ("amount", SQLVal.i 5),
        ("closing_balance", SQLVal.null)])
     (by decide) (by decide)⟩

/-- C9 counterexample: a database error during fetch-existing is not
re-raised — `BaseBankFeed.get_existing_transactions` swallows it and returns
the empty dictionary, and `bank_feeds_psql.insert_transactions` swallows an
upsert error (the boolean `false` records that no exception reached the
caller), so such runs do not abort. -/
theorem db_error_swallowed_cx :
    baseGetExistingTransactions (Except.error ()) = Except.ok [] ∧
    psqlInsertTransactionsRun (fun _ => none)
        [PsqlCatTx.mk "t1" "2024-01-02" "Shop" 5 none "Groceries" none]
        (some 0) =
      ((fun _ => none : QTable), false) := by
  constructor
  · rfl
  · rfl

/-- C9 (amended): a database error during an upsert in the shared, personal
or configuration-driven base `insert_transactions` is logged, the open
transaction is rolled back (the committed table is exactly the pre-run table,
no partial commit) and the exception is re-raised to the caller.  A database
error during fetch-existing, however, is logged and swallowed — both
`BaseBankFeed.get_existing_transactions` and the fetch-existing block of the
shared `categorize_and_label_transactions` return an empty dictionary and the
run continues — and `bank_feeds_psql.insert_transactions` swallows its upsert
errors (rolling back only implicitly by closing without commit) instead of
re-raising. -/
theorem db_error_handling :
    (∀ (T : STable) (txs : List SharedCatTx) (k : Nat), k < txs.length →
       sharedInsertTransactionsRun T txs (some k) = (T, true)) ∧
    (∀ (T : PTable) (txs : List PersonalFetchTx) (k : Nat), k < txs.length →
       personalInsertTransactionsRun T txs (some k) = (T, true)) ∧
    (∀ (cfg : BankConfig) (T : GTable) (txs : List GenRow) (k : Nat),
       k < txs.length →
       genInsertTransactionsRun cfg T txs (some k) = (T, true)) ∧
    (∀ e, baseGetExistingTransactions (Except.error e) = Except.ok []) ∧
    (∀ e, sharedFetchExisting (Except.error e) = Except.ok []) ∧
    (∀ (T : QTable) (txs : List PsqlCatTx) (k : Nat), k < txs.length →
       psqlInsertTransactionsRun T txs (some k) = (T, false)) := by
  refine ⟨?_, ?_, ?_, ?_, ?_, ?_⟩
  · intro T txs k hk
    unfold sharedInsertTransactionsRun
    rw [runStatements_error_of_lt sharedUpsert k txs 0 T (Nat.zero_le k)
      (by omega)]
  · intro T txs k hk
    unfold personalInsertTransactionsRun
    rw [runStatements_error_of_lt personalUpsert k txs 0 T (Nat.zero_le k)
      (by omega)]
  · intro cfg T txs k hk
    unfold genInsertTransactionsRun
    rw [runStatements_error_of_lt (genUpsert cfg) k txs 0 T (Nat.zero_le k)
      (by omega)]
  · intro e; rfl
  · intro e; rfl
  · intro T txs k hk
    unfold psqlInsertTransactionsRun
    rw [runStatements_error_of_lt psqlInsertOne k txs 0 T (Nat.zero_le k)
      (by omega)]

/-- Witness for C9's amended statement: a failing second statement in a
two-record shared batch rolls back to the original table and re-raises. -/
theorem db_error_handling_witness :
    (1 < ([SharedCatTx.mk "t1" "2024-01-02" "Shop" 5 "Groceries" none,
           SharedCatTx.mk "t2" "2024-01-03" "Cafe" 7 "Dining" none]).length) ∧
    sharedInsertTransactionsRun (fun _ => none)
        [SharedCatTx.mk "t1" "2024-01-02" "Shop" 5 "Groceries" none,
         SharedCatTx.mk "t2" "2024-01-03" "Cafe" 7 "Dining" none]
        (some 1) =
      ((fun _ => none : STable), true) :=
  ⟨by decide,
   db_error_handling.1 (fun _ => none)
     [SharedCatTx.mk "t1" "2024-01-02" "Shop" 5 "Groceries" none,
      SharedCatTx.mk "t2" "2024-01-03" "Cafe" 7 "Dining" none]
     1 (by decide)⟩

/-- C1: for a fetched record whose id already has a stored row, every
preserve-if-present field keeps its stored value whenever that value is
non-null (non-null and non-empty for the shared `bank_category`, the one
field configured with `NULLIF(..., '')`), regardless of the incoming value:
for the shared hand-written upsert this covers `amount`, `bank_category`,
`label`, `has_split` and `split_from_id`; for the configuration-driven base
class it holds of every configured preserve field. -/
theorem preserve_if_present_holds :
    (∀ (T : STable) (tx : SharedCatTx) (r : SharedRow), T tx.id = some r →
       ∃ q, sharedUpsert T tx tx.id = some q ∧
         (∀ a, r.amount = some a → q.amount = some a) ∧
         (∀ v, r.bank_category = some v → v ≠ "" → q.bank_category = some v) ∧
         (∀ v, r.label = some v → q.label = some v) ∧
         (∀ v, r.has_split = some v → q.has_split = some v) ∧
         (∀ v, r.split_from_id = some v → q.split_from_id = some v)) ∧
    (∀ (cfg : BankConfig) (T : GTable) (tx : GenRow) (r : GenRow)
       (fc : FieldCfg),
       cfg.fieldNames.Nodup → fc ∈ cfg.fields →
       fc.name ∈ cfg.preserveFields → fc.name ∉ cfg.apiUpdateFields →
       T (rowGet (incomingRow cfg tx) "id") = some r →
       rowGet r fc.name ≠ SQLVal.null →
       ∃ q, genUpsert cfg T tx (rowGet (incomingRow cfg tx) "id") = some q ∧
         rowGet q fc.name = rowGet r fc.name) := by
  constructor
  · intro T tx r hT
    refine ⟨sharedMerge r tx, by simp [sharedUpsert, hT], ?_⟩
    by_cases hg : sharedGuard r tx
    · refine ⟨?_, ?_, ?_, ?_, ?_⟩
      · intro a ha; simp [sharedMerge, hg, coalesceO, ha]
      · intro v hv hne
        simp [sharedMerge, hg, coalesceO, nullifEmptyO, hv, hne]
      · intro v hv; simp [sharedMerge, hg, coalesceO, hv]
      · intro v hv; simp [sharedMerge, hg, coalesceO, hv]
      · intro v hv; simp [sharedMerge, hg, coalesceO, hv]
    · have hmr : sharedMerge r tx = r := by simp [sharedMerge, hg]
      rw [hmr]
      exact ⟨fun a ha => ha, fun v hv _ => hv, fun v hv => hv,
        fun v hv => hv, fun v hv => hv⟩
  · intro cfg T tx r fc hnd hmem hpres hapi hT hnn
    refine ⟨genMerge cfg r (incomingRow cfg tx), by simp [genUpsert, hT], ?_⟩
    unfold genMerge
    by_cases hg : genGuard cfg r (incomingRow cfg tx)
    · rw [if_pos hg]
      unfold genUpdateRow
      rw [rowGet_mapFields _ fc cfg.fields hmem hnd]
      simp [hapi, hpres, coalesceV, hnn]
    · rw [if_neg hg]

/-- Witness for C1: a stored shared row with `has_split = true` and a filled
label survives a re-fetch that carries different values. -/
theorem preserve_if_present_holds_witness :
    ((fun k => if k = "t1" then
        some (SharedRow.mk "t1" "2024-01-01" "Old" (some 5) (some "Fuel")
          (some "Alice") (some true) (some "t0"))
      else none) "t1" =
      some (SharedRow.mk "t1" "2024-01-01" "Old" (some 5) (some "Fuel")
        (some "Alice") (some true) (some "t0"))) ∧
    (∃ q, sharedUpsert
        (fun k => if k = "t1" then
          some (SharedRow.mk "t1" "2024-01-01" "Old" (some 5) (some "Fuel")
            (some "Alice") (some true) (some "t0"))
        else none)
        (SharedCatTx.mk "t1" "2024-01-05" "New" 999 "Dining" none) "t1" =
        some q ∧
      (∀ a, (some 5 : Option Int) = some a → q.amount = some a) ∧
      (∀ v, (some "Fuel" : Option String) = some v → v ≠ "" →
        q.bank_category = some v) ∧
      (∀ v, (some "Alice" : Option String) = some v → q.label = some v) ∧
      (∀ v, (some true : Option Bool) = some v → q.has_split = some v) ∧
      (∀ v, (some "t0" : Option String) = some v → q.split_from_id = some v)) :=
  ⟨by decide,
   preserve_if_present_holds.1
     (fun k => if k = "t1" then
       some (SharedRow.mk "t1" "2024-01-01" "Old" (some 5) (some "Fuel")
         (some "Alice") (some true) (some "t0"))
     else none)
     (SharedCatTx.mk "t1" "2024-01-05" "New" 999 "Dining" none)
     (SharedRow.mk "t1" "2024-01-01" "Old" (some 5) (some "Fuel")
       (some "Alice") (some true) (some "t0"))
     (by decide)⟩

/-- A stored row failing the shared guard is left untouched by the shared
update clause. -/
theorem sharedMerge_of_guard_false (r : SharedRow) (tx : SharedCatTx)
    (h : sharedGuard r tx = false) : sharedMerge r tx = r := by
  simp [sharedMerge, h]

/-- Re-merging the same incoming record into an already-merged shared row
changes nothing: after a merge the always-refresh fields equal the incoming
values, so the guard fails. -/
theorem sharedMerge_absorb (r : SharedRow) (tx : SharedCatTx) :
    sharedMerge (sharedMerge r tx) tx = sharedMerge r tx := by
  by_cases hg : sharedGuard r tx
  · have hdd : (sharedMerge r tx).date = tx.date ∧
        (sharedMerge r tx).description = tx.description := by
      unfold sharedMerge
      rw [if_pos hg]
      exact ⟨rfl, rfl⟩
    have hu : sharedGuard (sharedMerge r tx) tx = false := by
      simp [sharedGuard, hdd.1, hdd.2]
    exact sharedMerge_of_guard_false _ tx hu
  · rw [sharedMerge_of_guard_false r tx (by simpa using hg)]
    exact sharedMerge_of_guard_false r tx (by simpa using hg)

/-- Merging an incoming record into the row its own insert created changes
nothing. -/
theorem sharedMerge_insertRow (tx : SharedCatTx) :
    sharedMerge (sharedInsertRowFromTx tx) tx = sharedInsertRowFromTx tx := by
  apply sharedMerge_of_guard_false
  simp [sharedGuard, sharedInsertRowFromTx]

/-- A shared upsert only touches the key it conflicts on. -/
theorem sharedUpsert_at_ne (T : STable) (tx : SharedCatTx) (k : String)
    (h : k ≠ tx.id) : sharedUpsert T tx k = T k := by
  simp [sharedUpsert, h]

/-- A batch of shared upserts leaves every id outside the batch untouched. -/
theorem sharedApply_at_not_mem :
    ∀ (txs : List SharedCatTx) (T : STable) (k : String),
      (∀ tx ∈ txs, tx.id ≠ k) → sharedApplyUpserts T txs k = T k := by
  intro txs
  induction txs with
  | nil => intro T k _; rfl
  | cons t ts ih =>
    intro T k h
    unfold sharedApplyUpserts
    rw [List.foldl_cons]
    have := ih (sharedUpsert T t) k (fun tx htx => h tx (by simp [htx]))
    unfold sharedApplyUpserts at this
    rw [this, sharedUpsert_at_ne T t k (fun he => h t (by simp) he.symm)]

/-- After a batch with pairwise-distinct ids runs, the row stored at any
batch record's id is a fixed point of a further merge with that record. -/
theorem sharedApply_stable :
    ∀ (txs : List SharedCatTx) (T : STable) (tx : SharedCatTx), tx ∈ txs →
      (txs.map SharedCatTx.id).Nodup →
      ∃ s, sharedApplyUpserts T txs tx.id = some s ∧ sharedMerge s tx = s := by
  intro txs
  induction txs with
  | nil => intro T tx h; cases h
  | cons t ts ih =>
    intro T tx hmem hnd
    rcases List.mem_cons.mp hmem with h | h
    · subst h
      have hnotin : ∀ u ∈ ts, u.id ≠ tx.id := by
        intro u hu heq
        exact (List.nodup_cons.mp hnd).1
          (heq ▸ List.mem_map_of_mem SharedCatTx.id hu)
      unfold sharedApplyUpserts
      rw [List.foldl_cons]
      have hrest := sharedApply_at_not_mem ts (sharedUpsert T tx) tx.id hnotin
      unfold sharedApplyUpserts at hrest
      rw [hrest]
      cases hT : T tx.id with
      | none =>
        exact ⟨sharedInsertRowFromTx tx, by simp [sharedUpsert, hT],
          sharedMerge_insertRow tx⟩
      | some r =>
        exact ⟨sharedMerge r tx, by simp [sharedUpsert, hT],
          sharedMerge_absorb r tx⟩
    · unfold sharedApplyUpserts
      rw [List.foldl_cons]
      exact ih (sharedUpsert T t) tx h (List.nodup_cons.mp hnd).2

/-- An upsert whose conflicting row is a fixed point of the merge is the
identity on the table. -/
theorem sharedUpsert_fixed (T : STable) (tx : SharedCatTx) (s : SharedRow)
    (hT : T tx.id = some s) (hfix : sharedMerge s tx = s) :
    sharedUpsert T tx = T := by
  funext k
  by_cases hk : k = tx.id
  · subst hk; simp [sharedUpsert, hT, hfix]
  · simp [sharedUpsert, hk]

/-- A batch each of whose upserts is the identity is itself the identity. -/
theorem sharedApply_id :
    ∀ (txs : List SharedCatTx) (T : STable),
      (∀ tx ∈ txs, sharedUpsert T tx = T) → sharedApplyUpserts T txs = T := by
  intro txs
  induction txs with
  | nil => intro T _; rfl
  | cons t ts ih =>
    intro T h
    unfold sharedApplyUpserts
    rw [List.foldl_cons, h t (by simp)]
    exact ih T (fun tx htx => h tx (by simp [htx]))

/-- `COALESCE(a, a) = a`. -/
theorem coalesceV_self (a : SQLVal) : coalesceV a a = a := by
  by_cases h : a = SQLVal.null <;> simp [coalesceV, h]

/-- `COALESCE(COALESCE(a, b), b) = COALESCE(a, b)`. -/
theorem coalesceV_absorb (a b : SQLVal) :
    coalesceV (coalesceV a b) b = coalesceV a b := by
  by_cases h : a = SQLVal.null <;> by_cases h2 : b = SQLVal.null <;>
    simp [coalesceV, h, h2]

/-- The conflict key of a processed transaction: the `id` column of its bound
parameter row. -/
def genKey (cfg : BankConfig) (tx : GenRow) : SQLVal :=
  rowGet (incomingRow cfg tx) "id"

/-- A stored row failing the generated WHERE guard is left untouched. -/
theorem genMerge_of_guard_false (cfg : BankConfig) (r inc : GenRow)
    (h : genGuard cfg r inc = false) : genMerge cfg r inc = r := by
  simp [genMerge, h]

/-- Reading one configured column of the SET-clause row. -/
theorem rowGet_updateRow (cfg : BankConfig) (stored inc : GenRow)
    (fc : FieldCfg) (hfc : fc ∈ cfg.fields) (hnd : cfg.fieldNames.Nodup) :
    rowGet (genUpdateRow cfg stored inc) fc.name =
      (if fc.name ∈ cfg.apiUpdateFields then rowGet inc fc.name
       else if fc.name ∈ cfg.preserveFields then
         coalesceV (rowGet stored fc.name) (rowGet inc fc.name)
       else rowGet stored fc.name) := by
  unfold genUpdateRow
  exact rowGet_mapFields _ fc cfg.fields hfc hnd

/-- Applying the SET clause twice with the same incoming row equals applying
it once. -/
theorem genUpdateRow_absorb (cfg : BankConfig) (hnd : cfg.fieldNames.Nodup)
    (r inc : GenRow) :
    genUpdateRow cfg (genUpdateRow cfg r inc) inc = genUpdateRow cfg r inc := by
  have hru : ∀ fc ∈ cfg.fields, rowGet (genUpdateRow cfg r inc) fc.name =
      (if fc.name ∈ cfg.apiUpdateFields then rowGet inc fc.name
       else if fc.name ∈ cfg.preserveFields then
         coalesceV (rowGet r fc.name) (rowGet inc fc.name)
       else rowGet r fc.name) :=
    fun fc hfc => rowGet_updateRow cfg r inc fc hfc hnd
  suffices h : ∀ u : GenRow,
      (∀ fc ∈ cfg.fields, rowGet u fc.name =
        (if fc.name ∈ cfg.apiUpdateFields then rowGet inc fc.name
         else if fc.name ∈ cfg.preserveFields then
           coalesceV (rowGet r fc.name) (rowGet inc fc.name)
         else rowGet r fc.name)) →
      genUpdateRow cfg u inc = genUpdateRow cfg r inc by
    exact h (genUpdateRow cfg r inc) hru
  intro u hu
  unfold genUpdateRow
  apply List.map_congr_left
  intro fc hfc
  have hval := hu fc hfc
  by_cases h1 : fc.name ∈ cfg.apiUpdateFields
  · simp [h1]
  · by_cases h2 : fc.name ∈ cfg.preserveFields
    · rw [if_neg h1, if_pos h2] at hval
      simp only [h1, h2, if_true, if_false]
      rw [hval, coalesceV_absorb]
    · rw [if_neg h1, if_neg h2] at hval
      simp only [h1, h2, if_false]
      rw [hval]

/-- Re-merging the same incoming row into an already-merged stored row
changes nothing. -/
theorem genMerge_absorb (cfg : BankConfig) (hnd : cfg.fieldNames.Nodup)
    (r inc : GenRow) :
    genMerge cfg (genMerge cfg r inc) inc = genMerge cfg r inc := by
  by_cases hg : genGuard cfg r inc
  · have hm : genMerge cfg r inc = genUpdateRow cfg r inc := by
      simp [genMerge, hg]
    rw [hm]
    by_cases hg2 : genGuard cfg (genUpdateRow cfg r inc) inc
    · have hm2 : genMerge cfg (genUpdateRow cfg r inc) inc =
          genUpdateRow cfg (genUpdateRow cfg r inc) inc := by
        simp [genMerge, hg2]
      rw [hm2]
      exact genUpdateRow_absorb cfg hnd r inc
    · simp [genMerge, hg2]
  · have hm : genMerge cfg r inc = r := by simp [genMerge, hg]
    rw [hm, genMerge_of_guard_false cfg r inc (by simpa using hg)]

/-- Merging an incoming row into the row its own insert created changes
nothing. -/
theorem genMerge_insertRow (cfg : BankConfig) (hnd : cfg.fieldNames.Nodup)
    (tx : GenRow) :
    genMerge cfg (incomingRow cfg tx) (incomingRow cfg tx) =
      incomingRow cfg tx := by
  by_cases hg : genGuard cfg (incomingRow cfg tx) (incomingRow cfg tx)
  · have hm : genMerge cfg (incomingRow cfg tx) (incomingRow cfg tx) =
        genUpdateRow cfg (incomingRow cfg tx) (incomingRow cfg tx) := by
      simp [genMerge, hg]
    rw [hm]
    unfold genUpdateRow
    conv_rhs => unfold incomingRow
    apply List.map_congr_left
    intro fc hfc
    have hval : rowGet (incomingRow cfg tx) fc.name =
        (match tx.find? (fun p => p.1 == fc.name) with
         | some p => p.2
         | none => fc.dfault) := by
      unfold incomingRow
      exact rowGet_mapFields _ fc cfg.fields hfc hnd
    by_cases h1 : fc.name ∈ cfg.apiUpdateFields
    · rw [if_pos h1, hval]
    · by_cases h2 : fc.name ∈ cfg.preserveFields
      · rw [if_neg h1, if_pos h2, coalesceV_self, hval]
      · rw [if_neg h1, if_neg h2, hval]
  · exact genMerge_of_guard_false cfg _ _ (by simpa using hg)

/-- A generic upsert only touches the key it conflicts on. -/
theorem genUpsert_at_ne (cfg : BankConfig) (T : GTable) (tx : GenRow)
    (k : SQLVal) (h : k ≠ genKey cfg tx) : genUpsert cfg T tx k = T k := by
  unfold genKey at h
  simp only [genUpsert]
  rw [if_neg h]

/-- A generic batch leaves every key outside the batch untouched. -/
theorem genApply_at_not_mem (cfg : BankConfig) :
    ∀ (txs : List GenRow) (T : GTable) (k : SQLVal),
      (∀ tx ∈ txs, genKey cfg tx ≠ k) →
      genInsertTransactions cfg T txs k = T k := by
  intro txs
  induction txs with
  | nil => intro T k _; rfl
  | cons t ts ih =>
    intro T k h
    unfold genInsertTransactions
    rw [List.foldl_cons]
    have := ih (genUpsert cfg T t) k (fun tx htx => h tx (by simp [htx]))
    unfold genInsertTransactions at this
    rw [this, genUpsert_at_ne cfg T t k (fun he => h t (by simp) he.symm)]

/-- After a generic batch with pairwise-distinct conflict keys runs, the row
stored at any batch record's key is a fixed point of a further merge with
that record's bound parameter row. -/
theorem genApply_stable (cfg : BankConfig) (hnd : cfg.fieldNames.Nodup) :
    ∀ (txs : List GenRow) (T : GTable) (tx : GenRow), tx ∈ txs →
      (txs.map (genKey cfg)).Nodup →
      ∃ s, genInsertTransactions cfg T txs (genKey cfg tx) = some s ∧
        genMerge cfg s (incomingRow cfg tx) = s := by
  intro txs
  induction txs with
  | nil => intro T tx h; cases h
  | cons t ts ih =>
    intro T tx hmem hnd2
    rcases List.mem_cons.mp hmem with h | h
    · subst h
      have hnotin : ∀ u ∈ ts, genKey cfg u ≠ genKey cfg tx := by
        intro u hu heq
        exact (List.nodup_cons.mp hnd2).1
          (heq ▸ List.mem_map_of_mem (genKey cfg) hu)
      unfold genInsertTransactions
      rw [List.foldl_cons]
      have hrest := genApply_at_not_mem cfg ts (genUpsert cfg T tx)
        (genKey cfg tx) hnotin
      unfold genInsertTransactions at hrest
      rw [hrest]
      cases hT : T (genKey cfg tx) with
      | none =>
        refine ⟨incomingRow cfg tx, ?_, genMerge_insertRow cfg hnd tx⟩
        unfold genKey at hT ⊢
        simp only [genUpsert]
        rw [if_pos trivial, hT]
      | some r =>
        refine ⟨genMerge cfg r (incomingRow cfg tx), ?_,
          genMerge_absorb cfg hnd r (incomingRow cfg tx)⟩
        unfold genKey at hT ⊢
        simp only [genUpsert]
        rw [if_pos trivial, hT]
    · unfold genInsertTransactions
      rw [List.foldl_cons]
      exact ih (genUpsert cfg T t) tx h (List.nodup_cons.mp hnd2).2

/-- A generic upsert whose conflicting row is a fixed point of the merge is
the identity on the table. -/
theorem genUpsert_fixed (cfg : BankConfig) (T : GTable) (tx : GenRow)
    (s : GenRow) (hT : T (genKey cfg tx) = some s)
    (hfix : genMerge cfg s (incomingRow cfg tx) = s) :
    genUpsert cfg T tx = T := by
  funext k
  by_cases hk : k = genKey cfg tx
  · subst hk
    unfold genKey at hT ⊢
    simp only [genUpsert]
    rw [if_pos trivial, hT]
    show some (genMerge cfg s (incomingRow cfg tx)) = some s
    rw [hfix]
  · exact genUpsert_at_ne cfg T tx k hk

/-- A generic batch each of whose upserts is the identity is itself the
identity. -/
theorem genApply_id (cfg : BankConfig) :
    ∀ (txs : List GenRow) (T : GTable),
      (∀ tx ∈ txs, genUpsert cfg T tx = T) →
      genInsertTransactions cfg T txs = T := by
  intro txs
  induction txs with
  | nil => intro T _; rfl
  | cons t ts ih =>
    intro T h
    unfold genInsertTransactions
    rw [List.foldl_cons, h t (by simp)]
    exact ih T (fun tx htx => h tx (by simp [htx]))

/-- C2: running the reconciliation/upsert a second time on the same fetched
input (a batch with pairwise-distinct ids), with no external mutation in
between, changes nothing: after the first run every always-refresh field of
each touched row already equals the incoming value, so the did-anything-change
guard makes each second-run update a no-op — both for the shared hand-written
upsert and for the configuration-driven base class. -/
theorem reconcile_idempotent :
    (∀ (T : STable) (txs : List SharedCatTx), (txs.map SharedCatTx.id).Nodup →
       sharedApplyUpserts (sharedApplyUpserts T txs) txs =
         sharedApplyUpserts T txs) ∧
    (∀ (cfg : BankConfig) (T : GTable) (txs : List GenRow),
       cfg.fieldNames.Nodup → (txs.map (genKey cfg)).Nodup →
       genInsertTransactions cfg (genInsertTransactions cfg T txs) txs =
         genInsertTransactions cfg T txs) := by
  constructor
  · intro T txs hnd
    apply sharedApply_id
    intro tx hmem
    obtain ⟨s, hTs, hfix⟩ := sharedApply_stable txs T tx hmem hnd
    exact sharedUpsert_fixed _ tx s hTs hfix
  · intro cfg T txs hnd hnd2
    apply genApply_id
    intro tx hmem
    obtain ⟨s, hTs, hfix⟩ := genApply_stable cfg hnd txs T tx hmem hnd2
    exact genUpsert_fixed cfg _ tx s hTs hfix

/-- Witness for C2: re-running a concrete two-record shared batch on the
table the first run produced changes nothing. -/
theorem reconcile_idempotent_witness :
    (([SharedCatTx.mk "t1" "2024-01-02" "Shop" 5 "Groceries" none,
       SharedCatTx.mk "t2" "2024-01-03" "Cafe" 7 "Dining" none].map
        SharedCatTx.id).Nodup) ∧
    sharedApplyUpserts
        (sharedApplyUpserts (fun _ => none)
          [SharedCatTx.mk "t1" "2024-01-02" "Shop" 5 "Groceries" none,
           SharedCatTx.mk "t2" "2024-01-03" "Cafe" 7 "Dining" none])
        [SharedCatTx.mk "t1" "2024-01-02" "Shop" 5 "Groceries" none,
         SharedCatTx.mk "t2" "2024-01-03" "Cafe" 7 "Dining" none] =
      sharedApplyUpserts (fun _ => none)
        [SharedCatTx.mk "t1" "2024-01-02" "Shop" 5 "Groceries" none,
         SharedCatTx.mk "t2" "2024-01-03" "Cafe" 7 "Dining" none] :=
  ⟨by decide,
   reconcile_idempotent.1 (fun _ => none)
     [SharedCatTx.mk "t1" "2024-01-02" "Shop" 5 "Groceries" none,
      SharedCatTx.mk "t2" "2024-01-03" "Cafe" 7 "Dining" none]
     (by decide)⟩
